import Mathlib

/-!
Shallow embedding of the sundial geometry engine of `om.py`
(parameter solver `S.init`, shadow projector `shadow`, and the
trace-generation loops of `go_to_work`), together with theorems checking
the natural-language specification against it.

All machine floating-point arithmetic of the source is modelled over `ℝ`;
the source's trigonometric functions map to Mathlib's `Real.sin`,
`Real.arcsin`, `Real.arccos`, `Real.arctan` and a C-style `atan2`.
-/

open Real

open scoped Classical

noncomputable section

/-- `SMALL` constant of `om.py` (line 64): the epsilon guard `1e-10`. -/
def SMALL : ℝ := 1e-10

/-- `math.radians`: degrees to radians, as used throughout `om.py`. -/
def rad (x : ℝ) : ℝ := x * π / 180

/-- `tim` of `om.py` (line 60): converts radians to a 24-hour circle. -/
def tim (a : ℝ) : ℝ := a * 12 / π

/-- C-style `math.atan2 y x`, the two-argument arctangent used by `om.py`. -/
def atan2 (y x : ℝ) : ℝ :=
  if 0 < x then arctan (y / x)
  else if x < 0 then (if 0 ≤ y then arctan (y / x) + π else arctan (y / x) - π)
  else if 0 < y then π / 2
  else if y < 0 then -(π / 2)
  else 0

/-- Derived equivalent geometry of the wall: `S.lam`, `S.lom`, `S.rot`. -/
structure Geom where
  lam : ℝ
  lom : ℝ
  rot : ℝ

/-- `S.init`, first part (om.py lines 119-126): equivalent latitude,
equivalent relative longitude and rotation of the wall.  The Python guard
`if (S.slo):` tests truthiness, i.e. `slo ≠ 0`. -/
def resolveGeom (lat ori slo : ℝ) : Geom :=
  if slo ≠ 0 then
    { lam := arcsin (Real.cos slo * Real.sin lat -
        Real.sin slo * Real.cos lat * Real.cos ori)
      lom := atan2 (Real.sin ori)
        (Real.cos lat / Real.tan slo + Real.sin lat * Real.cos ori)
      rot := atan2 (Real.sin ori)
        (Real.cos ori * Real.cos slo + Real.sin slo * Real.tan lat) }
  else
    { lam := lat, lom := 0, rot := ori }

/-- Gnomon-resolution inputs: the fields of `S` read by the second part of
`S.init` (om.py lines 140-153). -/
structure GnoIn where
  perp : Bool
  style : ℝ
  hsty : ℝ
  lam : ℝ
  rot : ℝ
  addx : ℝ
  addy : ℝ
  lsty : ℝ

/-- Gnomon-resolution outputs: the fields of `S` written by the second part
of `S.init`. -/
structure GnoOut where
  perp : Bool
  style : ℝ
  hsty : ℝ
  lsty : ℝ
  addx : ℝ
  addy : ℝ

/-- `S.init`, second part (om.py lines 140-153): resolve the gnomon
geometry from either the style length (`perp` off) or the perpendicular
height (`perp` on); if the resulting height is below `SMALL` the solver
forces perpendicular mode with unit height.  Total on all inputs. -/
def resolveGnomon (g : GnoIn) : GnoOut :=
  let s1 : ℝ × ℝ × ℝ × ℝ :=
    if g.perp = false then
      let h := |Real.sin g.lam * g.style|
      let l := |Real.cos g.lam * g.style| * (if g.lam < 0 then -1 else 1)
      (h, l, g.addx - Real.sin g.rot * l, g.addy + Real.cos g.rot * l)
    else (g.hsty, g.lsty, g.addx, g.addy)
  let h2 : ℝ := if s1.1 < SMALL then 1 else s1.1
  let p2 : Bool := if s1.1 < SMALL then true else g.perp
  if p2 = true then
    { perp := true
      style := |h2 / (Real.sin g.lam + SMALL)|
      hsty := h2
      lsty := h2 / (Real.tan g.lam + SMALL)
      addx := s1.2.2.1
      addy := s1.2.2.2 }
  else
    { perp := false
      style := g.style
      hsty := h2
      lsty := s1.2.1
      addx := s1.2.2.1
      addy := s1.2.2.2 }

/-- First resolution of the round-trip check: perpendicular mode with
height `H` (the prior class state of `style`/`lsty` is irrelevant in this
mode and is passed as `0`). -/
def perpResolve (lam rot ax ay H : ℝ) : GnoOut :=
  resolveGnomon
    { perp := true, style := 0, hsty := H, lam := lam, rot := rot,
      addx := ax, addy := ay, lsty := 0 }

/-- Second resolution of the round-trip check: style mode, fed with the
style length derived by `perpResolve`. -/
def styleReResolve (lam rot ax ay H : ℝ) : GnoOut :=
  resolveGnomon
    { perp := false, style := (perpResolve lam rot ax ay H).style,
      hsty := (perpResolve lam rot ax ay H).hsty, lam := lam, rot := rot,
      addx := ax, addy := ay, lsty := (perpResolve lam rot ax ay H).lsty }

/-- The fields of `S` read by `shadow`/`data_point` (om.py lines 559-589),
plus the graphic state (`G.scale`, `G.maxx`) consulted by the clipping
guard of `data_point`. -/
structure SParams where
  lat : ℝ
  lam : ℝ
  lom : ℝ
  rot : ℝ
  hsty : ℝ
  lsty : ℝ
  tmpz : ℝ
  noct : Bool
  mark : Bool
  scale : ℝ
  maxx : ℝ

/-- `elm` of `shadow` (om.py line 582): the sun's elevation above the
equivalent horizontal plane, with `ahm = ah - S.lom`. -/
def elmv (p : SParams) (tro ah : ℝ) : ℝ :=
  arcsin (Real.sin p.lam * Real.sin tro +
    Real.cos p.lam * Real.cos tro * Real.cos (ah - p.lom))

/-- `els` of `shadow` (om.py line 583): the sun's true elevation above the
real horizon, using the true latitude. -/
def elsv (p : SParams) (tro ah : ℝ) : ℝ :=
  arcsin (Real.sin p.lat * Real.sin tro +
    Real.cos p.lat * Real.cos tro * Real.cos ah)

/-- The visibility guard of `shadow` (om.py line 584):
`elm > 0 and (S.noct or els > 0)`. -/
def shadowVisible (p : SParams) (tro ah : ℝ) : Prop :=
  0 < elmv p tro ah ∧ (p.noct = true ∨ 0 < elsv p tro ah)

/-- The return value of `shadow` (om.py lines 577-589): `ON` exactly when
the visibility guard holds (independently of the clipping that may still
suppress the drawn point inside `data_point`). -/
def shadowRet (p : SParams) (tro ah : ℝ) : Bool :=
  if shadowVisible p tro ah then true else false

/-- `las` of `shadow` (om.py line 586): shadow length
`S.height() / (tan(elm) + SMALL)`, where `S.height() = S.hsty + S.tmpz`. -/
def lasv (p : SParams) (tro ah : ℝ) : ℝ :=
  (p.hsty + p.tmpz) / (Real.tan (elmv p tro ah) + SMALL)

/-- The clipping guard of `data_point` (om.py line 565) applied to the
distance `las` of a shadow point: skip when
`abs(distance)*G.scale > G.maxx*10`. -/
def shadowClip (p : SParams) (tro ah : ℝ) : Prop :=
  |lasv p tro ah| * p.scale > p.maxx * 10

/-- Effect of one call of `shadow` on the plotter pen `G.pen`: a visible,
unclipped, non-marker point runs `line_to`, which sets the pen down; in
every other case the pen is left unchanged (`shadow` never lifts it). -/
def penAfterShadow (p : SParams) (tro ah : ℝ) (pen : Bool) : Bool :=
  if shadowVisible p tro ah then
    (if shadowClip p tro ah then pen else if p.mark = true then pen else true)
  else pen

/-- Pen effect of one iteration of the conic day-curve sweep
(om.py lines 670-673): the body calls `shadow(d, a + S.lom)` and nothing
else touches the pen inside the loop. -/
def hypPenStep (p : SParams) (d a : ℝ) (pen : Bool) : Bool :=
  penAfterShadow p d (a + p.lom) pen

/-- State transition of the equation-of-time inner loop
(om.py lines 683-689) on the state `(drawing, pen)`: a visible sample sets
`drawing` and runs `data_point`; an invisible sample runs `penup()` when
`drawing` was set, else does nothing. -/
def teqStep (p : SParams) (d ahq : ℝ) (st : Bool × Bool) : Bool × Bool :=
  if shadowVisible p d ahq then (true, penAfterShadow p d ahq st.2)
  else if st.1 = true then (false, false) else st

/-- The octahedron `shape` table of om.py (lines 502-539): thirteen
`(x, y, d)` displacement triples. -/
def shapeList : List (ℝ × ℝ × ℝ) :=
  [(0, 0, 0.1), (-0.1, 0, 0), (0, 0, -0.1), (0.1, 0, 0),
   (0, 0.1, 0), (-0.1, 0, 0), (0, -0.1, 0), (0.1, 0, 0),
   (0, 0, 0.1), (0, 0.1, 0), (0, 0, -0.1), (0, -0.1, 0), (0, 0, 0.1)]

/-- `S.set_tmp` (om.py line 168): displace the tip of the gnomon. -/
def setTmp (pt : ℝ × ℝ × ℝ) (_t : ℝ × ℝ × ℝ) : ℝ × ℝ × ℝ := pt

/-- The statement `S.clear_tmp` on om.py line 729 **as written**: it names
the method without calling it (no parentheses), so it leaves the
temporary displacement unchanged. -/
def clearTmpAsWritten (t : ℝ × ℝ × ℝ) : ℝ × ℝ × ℝ := t

/-- `S.clear_tmp()` as defined on om.py lines 171-174: resets the
temporary displacement to zero. -/
def clearTmp (_t : ℝ × ℝ × ℝ) : ℝ × ℝ × ℝ := (0, 0, 0)

/-- Net effect on the temporary displacement `(tmpx, tmpy, tmpz)` of one
in-window hour of the auxiliary-shapes family (om.py lines 717-730): two
passes of `S.set_tmp` over the shape table followed by the bare
`S.clear_tmp` statement of line 729. -/
def shaHourTmp (t : ℝ × ℝ × ℝ) : ℝ × ℝ × ℝ :=
  clearTmpAsWritten
    (shapeList.foldl (fun s pt => setTmp pt s)
      (shapeList.foldl (fun s pt => setTmp pt s) t))

/-- Argument of the arccosine in the conic day-curve family
(om.py line 665): `s = -tan(decl) * tan(S.lam)`. -/
def sunsetArg (d lam : ℝ) : ℝ := -(Real.tan d * Real.tan lam)

/-- Sunset hour angle of the conic day-curve family (om.py lines 665-667):
`none` when the argument is `≥ 1` (curve skipped), `π` when it is `≤ -1`
(sun never sets), `acos` of the argument otherwise. -/
def sunsetAngle (d lam : ℝ) : Option ℝ :=
  if sunsetArg d lam < 1 then
    some (if -1 < sunsetArg d lam then arccos (sunsetArg d lam) else π)
  else none

/-- Number of iterations of the conic sweep
`for (a = -s+pi/180; a <= s-pi/180; a += pi/90)` (om.py lines 669-673). -/
def sweepCount (s : ℝ) : ℕ :=
  if 0 ≤ 2 * s - π / 90 then (⌊(2 * s - π / 90) / (π / 90)⌋).toNat + 1 else 0

/-- The hour angles visited by the conic sweep of om.py lines 669-673. -/
def sweepSamples (s : ℝ) : List ℝ :=
  (List.range (sweepCount s)).map (fun k : ℕ => -s + π / 180 + (k : ℝ) * (π / 90))

/-- Drawing primitives emitted into the SVG document by `SVG_interface`:
the bounding rectangle, the origin circles, polylines (tagged with their
point count), filled markers, text boxes and the closing marker comment
written by `close()`. -/
inductive Prim where
  | rect : Prim
  | circ : Prim
  | poly : ℕ → Prim
  | mark : Prim
  | text : Prim
  | closing : Prim
deriving DecidableEq

/-- Clipping guard of `data_point` (om.py line 565) for an explicit
distance argument. -/
def dpClip (p : SParams) (dist : ℝ) : Prop := |dist| * p.scale > p.maxx * 10

/-- SVG primitives emitted by one hour of the standard-hours family
(om.py lines 608-614): two `data_point` calls from the base (distances `0`
and `S.lsty`) followed by `penup()`.  `line_end` flushes a polyline only
when the buffer holds the header plus at least two points. -/
def hourEmission (p : SParams) : List Prim :=
  if p.mark = true then
    (if dpClip p 0 then [] else [Prim.mark]) ++
      (if dpClip p p.lsty then [] else [Prim.mark])
  else
    let c : ℕ := (if dpClip p 0 then 0 else 1) + (if dpClip p p.lsty then 0 else 1)
    if 2 ≤ c then [Prim.poly c] else []

/-- SVG primitives emitted by the standard-hours family
(om.py lines 607-626): skipped when `abs(S.lam) ≤ rad(0.5)`; otherwise 25
hour lines (hours 0..24) followed by the extra highlighted noon line that
the SVG back end redraws (lines 618-626). -/
def stdEmission (p : SParams) : List Prim :=
  if |p.lam| > rad 0.5 then
    (List.flatten ((List.range 25).map (fun _ => hourEmission p))) ++ hourEmission p
  else []

/-- SVG emission trace of `go_to_work` when every line family except the
standard-hours family is disabled: the unconditional bounding rectangle
and three origin circles (om.py lines 595-598), the standard family, and
the closing marker comment written by `SVG_interface.close()`
(om.py line 496).  A family whose flag is off emits nothing, since its
whole block is guarded by `if (startof_line(tag)):`. -/
def stdOnlyRunSVG (p : SParams) : List Prim :=
  [Prim.rect, Prim.circ, Prim.circ, Prim.circ] ++ stdEmission p ++ [Prim.closing]

/-- Concrete resolved parameters used to exercise the pen discipline: an
inclined-wall configuration with true latitude −85° and equivalent
latitude 85°, no equivalent-longitude offset, nocturnal mode off. -/
def hypDemoParams : SParams :=
  { lat := -(rad 85), lam := rad 85, lom := 0, rot := 0, hsty := 1,
    lsty := 0, tmpz := 0, noct := false, mark := false, scale := 200,
    maxx := 1000 }

/-- Concrete resolved parameters of a standard-only run: a flat polar
dial (latitude 90°, orientation 0°, slope 0°, style length 1), resolved
through `resolveGeom` and `resolveGnomon` exactly as `S.init` would, with
the default graphic state (`scale = 200`, `maxx = 1000`). -/
def stdDemoParams : SParams :=
  { lat := rad 90
    lam := (resolveGeom (rad 90) 0 0).lam
    lom := (resolveGeom (rad 90) 0 0).lom
    rot := (resolveGeom (rad 90) 0 0).rot
    hsty := (resolveGnomon ⟨false, 1, 0, (resolveGeom (rad 90) 0 0).lam,
      (resolveGeom (rad 90) 0 0).rot, 0, 0, 0⟩).hsty
    lsty := (resolveGnomon ⟨false, 1, 0, (resolveGeom (rad 90) 0 0).lam,
      (resolveGeom (rad 90) 0 0).rot, 0, 0, 0⟩).lsty
    tmpz := 0
    noct := false
    mark := false
    scale := 200
    maxx := 1000 }

/-- `draw_sundial` gnomon-mode selection (om.py lines 956-961):
`S.style` is always set to `style_length`; a truthy (nonzero)
`gnomon_height` sets `S.perp` and `S.hsty`, a zero one clears `S.perp`
and leaves `S.hsty` at its prior value.  Result: `(perp, hsty, style)`. -/
def drawSundialGnomon (gnomonHeight styleLength prevHsty : ℝ) :
    Bool × ℝ × ℝ :=
  if gnomonHeight = 0 then (false, prevHsty, styleLength)
  else (true, gnomonHeight, styleLength)

end

/-! ## Theorems -/

/-- C1: `shadow` reports "not visible" whenever the equivalent elevation
`elm ≤ 0`, for all declination/hour-angle pairs and regardless of the
nocturnal flag; and it reports visible exactly when `elm > 0` and either
the nocturnal flag is set or the true elevation `els > 0`. -/
theorem shadow_visibility_rule (p : SParams) (tro ah : ℝ) :
    (elmv p tro ah ≤ 0 → shadowRet p tro ah = false) ∧
    (shadowRet p tro ah = true ↔
      (0 < elmv p tro ah ∧ (p.noct = true ∨ 0 < elsv p tro ah))) := by
  constructor
  · intro h
    simp only [shadowRet, shadowVisible]
    rw [if_neg]
    rintro ⟨h1, -⟩
    exact absurd h (not_le.mpr h1)
  · simp only [shadowRet, shadowVisible]
    split_ifs with h
    · simpa using h
    · simpa using h

/-- Witness for C1: at latitude 0, equivalent latitude 0 and hour angle
`π` (midnight) with declination 0, the equivalent elevation is
`arcsin (-1) ≤ 0` and `shadow` reports not visible. -/
theorem shadow_visibility_rule_witness :
    elmv ⟨0, 0, 0, 0, 1, 0, 0, false, false, 200, 1000⟩ 0 π ≤ 0 ∧
    shadowRet ⟨0, 0, 0, 0, 1, 0, 0, false, false, 200, 1000⟩ 0 π = false := by
  have h : elmv ⟨0, 0, 0, 0, 1, 0, 0, false, false, 200, 1000⟩ 0 π ≤ 0 := by
    simp [elmv, Real.arcsin_neg_one]
    linarith [Real.pi_pos]
  exact ⟨h, (shadow_visibility_rule _ 0 π).1 h⟩

/-- C2: with wall slope exactly 0, parameter resolution yields
`lam = lat`, `lom = 0` and `rot = orientation` exactly, via the
non-trigonometric branch of `S.init` (the longitude plays no role in this
computation). -/
theorem flat_wall_exact (lat ori : ℝ) :
    resolveGeom lat ori 0 = ⟨lat, 0, ori⟩ := by
  simp [resolveGeom]

/-- C3 (code bug): om.py line 729 writes `S.clear_tmp` without
parentheses, a bare attribute reference that does not call the method, so
after an hour of the auxiliary-shapes family the temporary displacement
equals the last shape vertex `(0, 0, 0.1)` instead of `(0, 0, 0)`; the
next projection is computed with a displaced gnomon tip. -/
theorem sha_tmp_not_cleared :
    shaHourTmp (0, 0, 0) = (0, 0, 0.1) ∧
      ((0, 0, 0.1) : ℝ × ℝ × ℝ) ≠ (0, 0, 0) := by
  constructor
  · rfl
  · simp only [ne_eq, Prod.mk.injEq, not_and]
    intro _ _
    norm_num

/-- C4: whenever the resolved perpendicular height falls below `SMALL`
after the style-length computation, `S.init` forces perpendicular mode,
sets `hsty = 1`, and derives `style` and `lsty` from that unit height;
the resolver is a total function, failing on no input. -/
theorem gnomon_force_perp (g : GnoIn)
    (h : (if g.perp = false then |Real.sin g.lam * g.style| else g.hsty) < SMALL) :
    (resolveGnomon g).perp = true ∧ (resolveGnomon g).hsty = 1 ∧
    (resolveGnomon g).style = |1 / (Real.sin g.lam + SMALL)| ∧
    (resolveGnomon g).lsty = 1 / (Real.tan g.lam + SMALL) := by
  obtain ⟨perp, style, hsty, lam, rot, ax, ay, ls⟩ := g
  cases perp <;> simp_all [resolveGnomon]

/-- Witness for C4: a zero style length with style mode on yields a zero
height, which is below `SMALL`, and the resolver forces perpendicular
mode with unit height. -/
theorem gnomon_force_perp_witness :
    (if (⟨false, 0, 0, 0, 0, 0, 0, 0⟩ : GnoIn).perp = false
      then |Real.sin (0:ℝ) * 0| else (0:ℝ)) < SMALL ∧
    (resolveGnomon ⟨false, 0, 0, 0, 0, 0, 0, 0⟩).perp = true ∧
    (resolveGnomon ⟨false, 0, 0, 0, 0, 0, 0, 0⟩).hsty = 1 := by
  have h : (if (⟨false, 0, 0, 0, 0, 0, 0, 0⟩ : GnoIn).perp = false
      then |Real.sin ((⟨false, 0, 0, 0, 0, 0, 0, 0⟩ : GnoIn)).lam *
        ((⟨false, 0, 0, 0, 0, 0, 0, 0⟩ : GnoIn)).style|
      else (⟨false, 0, 0, 0, 0, 0, 0, 0⟩ : GnoIn).hsty) < SMALL := by
    norm_num [SMALL]
  obtain ⟨a, b, -, -⟩ := gnomon_force_perp _ h
  exact ⟨by simpa using h, a, b⟩

/-- C10: at the `draw_sundial` interface, `gnomon_height = 0` selects
style-length mode (`perp` off, the supplied `style_length` kept), while a
nonzero `gnomon_height` switches to perpendicular mode with that height;
in perpendicular mode the resolver's output is independent of the
`style_length` that was also supplied. -/
theorem draw_sundial_mode (gh sl ph lam rot ax ay ls : ℝ) :
    (gh = 0 → drawSundialGnomon gh sl ph = (false, ph, sl)) ∧
    (gh ≠ 0 → drawSundialGnomon gh sl ph = (true, gh, sl)) ∧
    (∀ sl' hs : ℝ, resolveGnomon ⟨true, sl, hs, lam, rot, ax, ay, ls⟩ =
      resolveGnomon ⟨true, sl', hs, lam, rot, ax, ay, ls⟩) := by
  refine ⟨fun h => by simp [drawSundialGnomon, h],
    fun h => by simp [drawSundialGnomon, h], fun sl' hs => ?_⟩
  by_cases h : hs < SMALL <;> simp [resolveGnomon, h]

/-- Witness for C10: height 0 keeps style mode; height 2 forces
perpendicular mode; and with perpendicular mode on, style lengths 5 and
99 resolve identically. -/
theorem draw_sundial_mode_witness :
    drawSundialGnomon 0 5 7 = (false, 7, 5) ∧
    drawSundialGnomon 2 5 7 = (true, 2, 5) ∧
    resolveGnomon ⟨true, 5, 2, 0, 0, 0, 0, 0⟩ =
      resolveGnomon ⟨true, 99, 2, 0, 0, 0, 0, 0⟩ :=
  ⟨(draw_sundial_mode 0 5 7 0 0 0 0 0).1 rfl,
   (draw_sundial_mode 2 5 7 0 0 0 0 0).2.1 (by norm_num),
   (draw_sundial_mode 2 5 7 0 0 0 0 0).2.2 99 2⟩

/-- Evaluation helper: at latitude 46°, orientation 0°, slope 90°, the
equivalent latitude computed by `S.init` is `-(44°)` in radians. -/
theorem vertWall_lam_eval : (resolveGeom (rad 46) 0 (rad 90)).lam = -(rad 44) := by
  have hp := Real.pi_pos
  have h90 : rad 90 = π / 2 := by unfold rad; ring
  have hne : rad 90 ≠ 0 := by rw [h90]; positivity
  have hcos : Real.cos (rad 46) = Real.sin (rad 44) := by
    rw [show rad 44 = π / 2 - rad 46 by unfold rad; ring, Real.sin_pi_div_two_sub]
  simp only [resolveGeom, if_pos hne]
  rw [h90, Real.cos_pi_div_two, Real.sin_pi_div_two, Real.cos_zero]
  rw [show (0 : ℝ) * Real.sin (rad 46) - 1 * Real.cos (rad 46) * 1 =
    -(Real.cos (rad 46)) by ring, hcos, Real.arcsin_neg, Real.arcsin_sin]
  · have : (0:ℝ) ≤ rad 44 := by unfold rad; positivity
    linarith
  · unfold rad; linarith

/-- Evaluation helper: at the same inputs the dial rotation computed by
`S.init` equals the orientation, 0. -/
theorem vertWall_rot_eval : (resolveGeom (rad 46) 0 (rad 90)).rot = 0 := by
  have hp := Real.pi_pos
  have h90 : rad 90 = π / 2 := by unfold rad; ring
  have hne : rad 90 ≠ 0 := by rw [h90]; positivity
  have htan : 0 < Real.tan (rad 46) := by
    apply Real.tan_pos_of_pos_of_lt_pi_div_two
    · unfold rad; positivity
    · unfold rad; linarith
  simp only [resolveGeom, if_pos hne]
  rw [h90, Real.sin_zero, Real.cos_zero, Real.sin_pi_div_two,
    Real.cos_pi_div_two]
  rw [show (1 : ℝ) * 0 + 1 * Real.tan (rad 46) = Real.tan (rad 46) by ring]
  unfold atan2
  rw [if_pos htan, zero_div, Real.arctan_zero]

/-- C6 counterexample: for latitude 46°, longitude −6°, orientation 0°,
slope 90°, the solver produces `lam = -(44°)`, not `90° − latitude = 44°`:
the distance to the claimed value exceeds 1 radian, far beyond floating
tolerance.  (Longitude, zone and style length play no role in `lam`.) -/
theorem vertical_wall_lam_counterexample :
    (resolveGeom (rad 46) 0 (rad 90)).lam = -(rad 44) ∧
    1 < |(resolveGeom (rad 46) 0 (rad 90)).lam - rad 44| := by
  refine ⟨vertWall_lam_eval, ?_⟩
  rw [vertWall_lam_eval]
  rw [show -(rad 44) - rad 44 = -(88 * π / 180) by unfold rad; ring, abs_neg,
    abs_of_nonneg (by positivity)]
  linarith [Real.pi_gt_three]

/-- C6 amended: for latitude 46°, longitude −6°, orientation 0°,
slope 90°, zone +1, style 1.0, the solver produces `lam` equal to
`-(90° − latitude)` (i.e. `−44°`: the vertical south wall behaves as a
horizontal dial at the complementary latitude of the opposite
hemisphere), and `rot` equal to the orientation. -/
theorem vertical_wall_lam_amended :
    (resolveGeom (rad 46) 0 (rad 90)).lam = -(rad 44) ∧
    (resolveGeom (rad 46) 0 (rad 90)).rot = 0 :=
  ⟨vertWall_lam_eval, vertWall_rot_eval⟩

/-- Evaluation helper: the `k`-th hour angle visited by the conic sweep. -/
theorem sweepSamples_get (s : ℝ) (k : ℕ) (h : k < (sweepSamples s).length) :
    (sweepSamples s).get ⟨k, h⟩ = -s + π / 180 + (k : ℝ) * (π / 90) := by
  rw [List.get_eq_getElem]
  unfold sweepSamples
  rw [List.getElem_map, List.getElem_range]

/-- C7: in the conic day-curve family, for every sampled declination the
sunset hour angle uses `π` when `-tan(decl)·tan(lam) ≤ -1` (sun never
sets), skips the curve when the argument is `≥ 1`, applies `acos` only to
arguments inside `[-1, 1]` (so the family never fails), and sweeps the
hour angle in steps of exactly 2°. -/
theorem conic_sunset_safe (d lam : ℝ) :
    (1 ≤ sunsetArg d lam → sunsetAngle d lam = none) ∧
    (sunsetArg d lam ≤ -1 → sunsetAngle d lam = some π) ∧
    (∀ θ : ℝ, sunsetAngle d lam = some θ →
      θ = π ∨ (-1 ≤ sunsetArg d lam ∧ sunsetArg d lam ≤ 1 ∧
        θ = arccos (sunsetArg d lam))) ∧
    (∀ s : ℝ, ∀ k : ℕ, ∀ h : k + 1 < (sweepSamples s).length,
      (sweepSamples s).get ⟨k + 1, h⟩ -
        (sweepSamples s).get ⟨k, Nat.lt_of_succ_lt h⟩ = rad 2) := by
  refine ⟨fun h => ?_, fun h => ?_, fun θ h => ?_, fun s k h => ?_⟩
  · unfold sunsetAngle
    rw [if_neg (not_lt.mpr h)]
  · unfold sunsetAngle
    rw [if_pos (lt_of_le_of_lt h (by norm_num)), if_neg (not_lt.mpr h)]
  · unfold sunsetAngle at h
    split_ifs at h with h1 h2
    · exact Or.inr ⟨le_of_lt h2, le_of_lt h1, (Option.some.inj h).symm⟩
    · exact Or.inl (Option.some.inj h).symm
  · rw [sweepSamples_get, sweepSamples_get, Nat.cast_add, Nat.cast_one]
    unfold rad
    ring

/-- Witness for C7: at declination 45° and equivalent latitude 45° the
argument is exactly −1 (midnight sun boundary) and the family uses `π`
for the sunset hour angle instead of calling `acos` out of domain. -/
theorem conic_sunset_safe_witness :
    sunsetArg (π / 4) (π / 4) ≤ -1 ∧ sunsetAngle (π / 4) (π / 4) = some π := by
  have h : sunsetArg (π / 4) (π / 4) ≤ -1 := by
    unfold sunsetArg
    rw [Real.tan_pi_div_four]
    norm_num
  exact ⟨h, (conic_sunset_safe (π / 4) (π / 4)).2.1 h⟩

/-- Evaluation helper: at declination 20° and hour angle 0 the sample is
invisible for `hypDemoParams` — the real sun is below the true horizon
(`els = arcsin (cos 105°) < 0`) and nocturnal mode is off. -/
theorem hypDemo_sample_invisible : ¬ shadowVisible hypDemoParams (rad 20) 0 := by
  have hp := Real.pi_pos
  have hcos : Real.cos (rad 105) < 0 := by
    apply Real.cos_neg_of_pi_div_two_lt_of_lt
    · unfold rad; linarith
    · unfold rad; linarith
  have hval : Real.sin (-(rad 85)) * Real.sin (rad 20) +
      Real.cos (-(rad 85)) * Real.cos (rad 20) * Real.cos (0 : ℝ) =
      Real.cos (rad 105) := by
    rw [Real.sin_neg, Real.cos_neg, Real.cos_zero,
      show rad 105 = rad 85 + rad 20 by unfold rad; ring, Real.cos_add]
    ring
  rintro ⟨-, h | h⟩
  · simp [hypDemoParams] at h
  · have hle : elsv hypDemoParams (rad 20) 0 ≤ 0 := by
      unfold elsv hypDemoParams
      rw [hval]
      exact Real.arcsin_nonpos.mpr (le_of_lt hcos)
    linarith

/-- C8 counterexample: in the conic day-curve family, a sweep step whose
projection yields no visible point leaves the pen down: at
`hypDemoParams` with declination 20° and hour angle 0, the step is
invisible yet the pen state stays `true`, so the next visible sample
extends the same stroke — contradicting the claim that every invisible
step transitions the pen to "up". -/
theorem pen_not_lifted_counterexample :
    ¬ shadowVisible hypDemoParams (rad 20) 0 ∧
    hypPenStep hypDemoParams (rad 20) 0 true = true := by
  refine ⟨hypDemo_sample_invisible, ?_⟩
  unfold hypPenStep penAfterShadow
  rw [if_neg (by simpa [hypDemoParams] using hypDemo_sample_invisible)]

/-- C8 amended: the equation-of-time family does transition to "pen up"
whenever a step yields no visible point (given its `drawing` flag mirrors
the pen, as it does along the loop); but in the conic day-curve family an
invisible step leaves the pen state unchanged — the pen is lifted only at
segment boundaries. -/
theorem pen_lift_amended (p : SParams) (d q a : ℝ) (st : Bool × Bool)
    (pen : Bool) :
    (st.2 = st.1 → ¬ shadowVisible p d q → (teqStep p d q st).2 = false) ∧
    (¬ shadowVisible p d (a + p.lom) → hypPenStep p d a pen = pen) := by
  constructor
  · intro hst hv
    unfold teqStep
    rw [if_neg hv]
    by_cases h1 : st.1 = true
    · rw [if_pos h1]
    · rw [if_neg h1, hst]
      simpa using h1
  · intro hv
    unfold hypPenStep penAfterShadow
    rw [if_neg hv]

/-- Witness for C8's amended statement: at the concrete invisible sample
of `hypDemoParams`, the equation-of-time step lifts the pen while the
conic step leaves it down. -/
theorem pen_lift_amended_witness :
    (teqStep hypDemoParams (rad 20) 0 (false, false)).2 = false ∧
    hypPenStep hypDemoParams (rad 20) 0 true = true :=
  ⟨(pen_lift_amended hypDemoParams (rad 20) 0 0 (false, false) true).1 rfl
      hypDemo_sample_invisible,
   (pen_lift_amended hypDemoParams (rad 20) 0 0 (false, false) true).2
      (by simpa [hypDemoParams] using hypDemo_sample_invisible)⟩

/-- List helper: flattening `n` copies of a one-element list gives
`n` copies of the element. -/
theorem flatten_map_singleton {α : Type} (n : ℕ) (a : α) :
    ((List.range n).map (fun _ => [a])).flatten = List.replicate n a := by
  induction n with
  | zero => rfl
  | succ m ih => simp [List.range_succ, ih, List.replicate_succ']

/-- Evaluation helper: the equivalent latitude of the flat polar demo
dial is 90°. -/
theorem stdDemo_lam : stdDemoParams.lam = rad 90 := by
  simp [stdDemoParams, resolveGeom]

/-- Evaluation helper: the base length `lsty` of the flat polar demo dial
is 0 (the style is the gnomon itself at the pole). -/
theorem stdDemo_lsty : stdDemoParams.lsty = 0 := by
  have h90 : rad 90 = π / 2 := by unfold rad; ring
  have hlam : (resolveGeom (rad 90) 0 0).lam = rad 90 := by
    simp [resolveGeom]
  have hsin : Real.sin ((resolveGeom (rad 90) 0 0).lam) = 1 := by
    rw [hlam, h90, Real.sin_pi_div_two]
  have hcos : Real.cos ((resolveGeom (rad 90) 0 0).lam) = 0 := by
    rw [hlam, h90, Real.cos_pi_div_two]
  have hneg : ¬ (resolveGeom (rad 90) 0 0).lam < 0 := by
    rw [hlam, h90]
    exact not_lt.mpr (by positivity)
  show (resolveGnomon ⟨false, 1, 0, (resolveGeom (rad 90) 0 0).lam,
      (resolveGeom (rad 90) 0 0).rot, 0, 0, 0⟩).lsty = 0
  unfold resolveGnomon
  simp [hsin, hcos, hneg, SMALL]
  norm_num

/-- Evaluation helper: one hour of the standard family on the demo dial
emits exactly one two-point polyline (neither distance is clipped). -/
theorem stdDemo_hourEmission : hourEmission stdDemoParams = [Prim.poly 2] := by
  have hm : ¬ stdDemoParams.mark = true := by simp [stdDemoParams]
  have h0 : ¬ dpClip stdDemoParams 0 := by
    unfold dpClip
    simp [stdDemoParams]
  have h1 : ¬ dpClip stdDemoParams stdDemoParams.lsty := by
    unfold dpClip
    rw [stdDemo_lsty]
    simp [stdDemoParams]
  unfold hourEmission
  rw [if_neg hm, if_neg h0, if_neg h1]
  norm_num

/-- Evaluation helper: the full SVG emission trace of the standard-only
demo run — rectangle, three circles, 25 hour polylines, the extra
highlighted noon polyline, and the closing marker. -/
theorem stdDemo_run_eval :
    stdOnlyRunSVG stdDemoParams =
      [Prim.rect, Prim.circ, Prim.circ, Prim.circ] ++
        (List.replicate 25 (Prim.poly 2) ++ [Prim.poly 2]) ++
        [Prim.closing] := by
  have hp := Real.pi_pos
  have hlam : |stdDemoParams.lam| > rad 0.5 := by
    rw [stdDemo_lam, show rad 90 = π / 2 from by unfold rad; ring,
      abs_of_pos (by positivity)]
    unfold rad
    linarith
  unfold stdOnlyRunSVG stdEmission
  rw [if_pos hlam, stdDemo_hourEmission, flatten_map_singleton]

/-- C9 counterexample: with every family but "standard" disabled, the
run emits 31 primitives (rectangle, three circles, 25 hour polylines,
the SVG noon highlight polyline, the closing marker), not the claimed
25 + 1 = 26. -/
theorem std_count_counterexample :
    (stdOnlyRunSVG stdDemoParams).length = 31 ∧ (31 : ℕ) ≠ 25 + 1 := by
  refine ⟨?_, by norm_num⟩
  rw [stdDemo_run_eval]
  simp

/-- C9 amended: with every family but "standard" disabled, the emitted
SVG primitives are exactly one bounding rectangle, three origin circles,
25 hour-line polylines (hours 0..24), one extra highlighted noon
polyline, and one closing marker — 31 primitives, of which the hour
polylines number exactly the 25 legal hours. -/
theorem std_count_amended :
    stdOnlyRunSVG stdDemoParams =
      [Prim.rect, Prim.circ, Prim.circ, Prim.circ] ++
        (List.replicate 25 (Prim.poly 2) ++ [Prim.poly 2]) ++
        [Prim.closing] ∧
    (stdOnlyRunSVG stdDemoParams).length = 31 := by
  refine ⟨stdDemo_run_eval, ?_⟩
  rw [stdDemo_run_eval]
  simp

/-- Evaluation helper: perpendicular-mode resolution with a height not
below `SMALL` keeps the height and derives style and base length. -/
theorem perpResolve_eval (lam rot ax ay H : ℝ) (hH : ¬ H < SMALL) :
    perpResolve lam rot ax ay H =
      { perp := true, style := |H / (Real.sin lam + SMALL)|, hsty := H,
        lsty := H / (Real.tan lam + SMALL), addx := ax, addy := ay } := by
  unfold perpResolve resolveGnomon
  simp [hH]

/-- Evaluation helper: style-mode resolution with a resulting height not
below `SMALL` keeps style mode. -/
theorem resolveGnomon_style_eval (g : GnoIn) (hp : g.perp = false)
    (h : ¬ |Real.sin g.lam * g.style| < SMALL) :
    resolveGnomon g =
      { perp := false, style := g.style,
        hsty := |Real.sin g.lam * g.style|,
        lsty := |Real.cos g.lam * g.style| * (if g.lam < 0 then -1 else 1),
        addx := g.addx - Real.sin g.rot *
          (|Real.cos g.lam * g.style| * (if g.lam < 0 then -1 else 1)),
        addy := g.addy + Real.cos g.rot *
          (|Real.cos g.lam * g.style| * (if g.lam < 0 then -1 else 1)) } := by
  unfold resolveGnomon
  simp [hp, h]

/-- C5: round-trip mode-inversion consistency.  Resolving in
perpendicular mode with height `H`, then re-resolving in style mode with
the derived style length, reproduces `H` within floating tolerance
(relative error at most `2e-5`), for every configuration whose
equivalent latitude is non-degenerate (`|sin lam| ≥ 1e-5`) and whose
height is itself non-degenerate (`H ≥ 1e-6`). -/
theorem roundtrip_height (lam rot ax ay H : ℝ)
    (hlam : 1e-5 ≤ |Real.sin lam|) (hH : 1e-6 ≤ H) :
    |(styleReResolve lam rot ax ay H).hsty - H| ≤ 2e-5 * H := by
  have hH' : ¬ H < SMALL := by
    simp only [SMALL, not_lt]
    linarith
  have hHpos : 0 < H := by linarith
  have hp1 := perpResolve_eval lam rot ax ay H hH'
  set s : ℝ := Real.sin lam with hs
  set A : ℝ := |s + SMALL| with hA
  have hSpos : (0 : ℝ) < SMALL := by
    simp only [SMALL]
    norm_num
  have hsle : |s| ≤ 1 := Real.abs_sin_le_one lam
  have hAub : A ≤ |s| + SMALL := by
    have h1 := abs_add s SMALL
    rw [abs_of_pos hSpos] at h1
    rw [hA]
    exact h1
  have hAlb : |s| - SMALL ≤ A := by
    have h2 : |s + SMALL + -SMALL| ≤ |s + SMALL| + |(-SMALL : ℝ)| := abs_add _ _
    have h3 : |(-SMALL : ℝ)| = SMALL := by
      rw [abs_neg]
      exact abs_of_pos hSpos
    have h4 : s + SMALL + -SMALL = s := by ring
    rw [h4, h3, ← hA] at h2
    linarith
  have hApos : 0 < A := by
    simp only [SMALL] at hAlb
    linarith
  have hstyle1 : (perpResolve lam rot ax ay H).style = |H / (s + SMALL)| := by
    rw [hp1]
  have hval : abs (s * |H / (s + SMALL)|) = |s| * H / A := by
    rw [abs_mul, abs_abs, abs_div, abs_of_pos hHpos, ← hA]
    ring
  have hge : ¬ abs (s * (perpResolve lam rot ax ay H).style) < SMALL := by
    rw [hstyle1, hval, not_lt, le_div_iff₀ hApos]
    have k1 : |s| * 1e-6 ≤ |s| * H :=
      mul_le_mul_of_nonneg_left hH (abs_nonneg s)
    simp only [SMALL] at hAub ⊢
    nlinarith
  have h2 := resolveGnomon_style_eval
    { perp := false, style := (perpResolve lam rot ax ay H).style,
      hsty := (perpResolve lam rot ax ay H).hsty, lam := lam, rot := rot,
      addx := ax, addy := ay, lsty := (perpResolve lam rot ax ay H).lsty }
    rfl hge
  have hsty2 : (styleReResolve lam rot ax ay H).hsty =
      abs (s * (perpResolve lam rot ax ay H).style) := by
    unfold styleReResolve
    rw [h2]
  rw [hsty2, hstyle1, hval]
  have hdiff : |s| * H / A - H = H * (|s| - A) / A := by
    field_simp
    ring
  rw [hdiff, abs_div, abs_mul, abs_of_pos hHpos, abs_of_pos hApos,
    div_le_iff₀ hApos]
  have hnum : abs (|s| - A) ≤ SMALL := by
    rw [abs_le]
    constructor <;> linarith
  have hfin : 1e-10 ≤ 2e-5 * A := by
    simp only [SMALL] at hAlb
    nlinarith
  have hmain : H * abs (|s| - A) ≤ H * SMALL :=
    mul_le_mul_of_nonneg_left hnum (le_of_lt hHpos)
  have hstep : H * 1e-10 ≤ H * (2e-5 * A) :=
    mul_le_mul_of_nonneg_left hfin (le_of_lt hHpos)
  simp only [SMALL] at hmain
  nlinarith

/-- Witness for C5: at equivalent latitude 90° (`sin lam = 1`) and height
1, the round trip reproduces the height within the stated tolerance. -/
theorem roundtrip_height_witness :
    (1e-5 : ℝ) ≤ |Real.sin (π / 2)| ∧
    |(styleReResolve (π / 2) 0 0 0 1).hsty - 1| ≤ 2e-5 * 1 := by
  have h : (1e-5 : ℝ) ≤ |Real.sin (π / 2)| := by
    rw [Real.sin_pi_div_two]
    norm_num
  exact ⟨h, roundtrip_height (π / 2) 0 0 0 1 h (by norm_num)⟩
